import Mathlib

/-!
Verification of the file2text extraction service.

Shallow embedding of the repository's extraction pipelines:
  - `src/app/main.py` (`get_file_type`, the legacy HTTP endpoints),
  - `src/app/extractors/pdf_extractor.py`,
  - `src/app/extractors/image_extractor.py`,
  - `src/app/extractors/doc_extractor.py`.

External collaborators (PyPDF2 page texts, tesseract OCR output, LibreOffice
conversion outcome, python-docx parsing) are modelled as explicit parameters;
the decision logic, string handling and temp-file bookkeeping are translated
from the Python source.
-/

namespace File2Text

/-! ## Python string primitives used by the source -/

/-- Python whitespace test used by `str.strip()` (the ASCII whitespace
characters; the source never strips any other character class). -/
def isPySpace (c : Char) : Bool :=
  c == ' ' || c == '\t' || c == '\n' || c == '\r' || c == '\x0b' || c == '\x0c'

/-- Remove trailing whitespace characters from a character list. -/
def rstripList (l : List Char) : List Char :=
  (l.reverse.dropWhile isPySpace).reverse

/-- Remove leading and trailing whitespace characters, as Python's
`str.strip()` does. -/
def pyStripList (l : List Char) : List Char :=
  rstripList (l.dropWhile isPySpace)

/-- Python's `str.strip()`. -/
def pyStrip (s : String) : String :=
  ⟨pyStripList s.data⟩

/-- Python's `str.lower()` on the ASCII range (the only case mapping the
source's extension tables rely on). -/
def pyLower (s : String) : String :=
  ⟨s.data.map Char.toLower⟩

/-- `listLead pat l` is true when `pat` is an initial segment of `l`. -/
def listLead : List Char → List Char → Bool
  | [], _ => true
  | _ :: _, [] => false
  | a :: as, b :: bs => a == b && listLead as bs

/-- Python's `str.endswith(suf)`. -/
def strEndsWith (s suf : String) : Bool :=
  listLead suf.data.reverse s.data.reverse

/-- The extension component of `os.path.splitext` (POSIX flavour, as on the
service's host): the suffix of the basename starting at its last dot,
except that a basename whose characters before that dot are all dots (for
example `.bashrc`) has no extension. -/
def splitext_ext (p : String) : String :=
  let b := (p.data.reverse.takeWhile (fun c => c ≠ '/')).reverse
  let r := b.reverse
  let afterDot := r.takeWhile (fun c => c ≠ '.')
  match r.dropWhile (fun c => c ≠ '.') with
  | [] => ""
  | _ :: stemRev =>
    if stemRev.any (fun c => c ≠ '.') then ⟨'.' :: afterDot.reverse⟩ else ""

/-! ## TypeClassifier (`get_file_type`, src/app/main.py) -/

/-- `get_file_type` from `src/app/main.py`: table-driven classification of a
filename by its lowercased extension. -/
def get_file_type (filename : String) : String :=
  let extension := pyLower (splitext_ext filename)
  if extension ∈ ([".pdf"] : List String) then "pdf"
  else if extension ∈ ([".doc", ".docx"] : List String) then "doc"
  else if extension ∈ ([".jpg", ".jpeg", ".png", ".tiff", ".tif", ".bmp", ".gif"] : List String) then "image"
  else if extension ∈ ([".xlsx", ".xls"] : List String) then "excel"
  else if extension ∈ ([".pptx", ".ppt"] : List String) then "powerpoint"
  else if extension ∈ ([".html", ".htm"] : List String) then "html"
  else if extension ∈ ([".txt", ".md"] : List String) then "text"
  else "unknown"

/-- The four document categories enumerated by the specification. -/
def specCategories : List String := ["pdf", "legacy_doc", "image", "unknown"]

/-- The eight category strings `get_file_type` can actually return. -/
def codeCategories : List String :=
  ["pdf", "doc", "image", "excel", "powerpoint", "html", "text", "unknown"]

/-- Every extension that appears in `get_file_type`'s dispatch table. -/
def knownExts : List String :=
  [".pdf", ".doc", ".docx", ".jpg", ".jpeg", ".png", ".tiff", ".tif", ".bmp", ".gif",
   ".xlsx", ".xls", ".pptx", ".ppt", ".html", ".htm", ".txt", ".md"]

/-! ## Filesystem model for temporary artifacts

Pipelines that create temporary files are threaded through an explicit
filesystem state: the list of paths currently existing.  A
`tempfile.TemporaryDirectory` scope adds the directory on entry and removes
the directory and everything under it on every exit path (its `__exit__`
runs `shutil.rmtree` whether the body returned or raised). -/

/-- A filesystem state: the list of existing paths. -/
abbrev FS : Type := List String

/-- `underDir d p` holds when path `p` is the directory `d` itself or lies
underneath it. -/
def underDir (d p : String) : Bool :=
  p == d || listLead (d.data ++ ['/']) p.data

/-- Removing a temporary directory and its contents (`shutil.rmtree`, run by
`TemporaryDirectory.__exit__`). -/
def cleanupDir (d : String) (fs : FS) : FS :=
  List.filter (fun p => !underDir d p) fs

/-- `freshDir d fs` says the temporary directory name `d` is fresh: nothing in
the existing filesystem is `d` or under it (guaranteed by `tempfile`'s name
generation). -/
def freshDir (d : String) (fs : FS) : Prop :=
  ∀ p ∈ fs, underDir d p = false

/-! ## PdfTextPipeline (src/app/extractors/pdf_extractor.py) -/

/-- The page-by-page accumulation of PyPDF2 text in `extract_text_from_pdf`:
each page whose stripped text is non-empty contributes
`page_text + "\n\n"`.  A PyPDF2 failure part-way through the loop leaves the
prefix accumulated so far, which is the same as running on that prefix of
pages. -/
def directConcat (pages : List String) : String :=
  pages.foldl (fun acc p => if pyStrip p = "" then acc else acc ++ p ++ "\n\n") ""

/-- The OCR accumulation loop in `extract_text_with_ocr`: every page's OCR
text contributes `page_text + "\n\n"` unconditionally. -/
def concatPagesOCR (texts : List String) : String :=
  texts.foldl (fun acc t => acc ++ t ++ "\n\n") ""

/-- Run OCR over each rendered page image in order; the first engine failure
aborts the whole loop (the source has no per-page handler inside
`extract_text_with_ocr`). -/
def ocrAll (ocr : String → Except Unit String) : List String → Except Unit (List String)
  | [] => .ok []
  | i :: is =>
    match ocr i with
    | .error e => .error e
    | .ok t =>
      match ocrAll ocr is with
      | .error e => .error e
      | .ok ts => .ok (t :: ts)

/-- `extract_text_with_ocr` from `src/app/extractors/pdf_extractor.py`.
`render` is the outcome of `convert_from_path` (the names of the page images
it writes into the temporary directory), `ocr` the per-image
`pytesseract.image_to_string` call.  The `with TemporaryDirectory` scope
creates `tempDir`, the body writes the page images under it, and the scope
removes everything on exit; an exception from rendering or OCR is caught by
the surrounding `try`/`except`, which returns the empty string. -/
def extract_text_with_ocr (fs : FS) (tempDir : String)
    (render : Except Unit (List String)) (ocr : String → Except Unit String) :
    FS × String :=
  let fs1 : FS := tempDir :: fs
  match render with
  | .error _ => (cleanupDir tempDir fs1, "")
  | .ok imgs =>
    let fs2 : FS := imgs.map (fun i => tempDir ++ "/" ++ i) ++ fs1
    match ocrAll ocr imgs with
    | .error _ => (cleanupDir tempDir fs2, "")
    | .ok texts => (cleanupDir tempDir fs2, concatPagesOCR texts)

/-- The environment of the OCR fallback: the temporary directory name that
`tempfile` would pick, the renderer outcome and the OCR engine. -/
structure PdfOcrEnv where
  tempDir : String
  render : Except Unit (List String)
  ocr : String → Except Unit String

/-- The observable outcome of one `extract_text_from_pdf` call: the final
filesystem, the returned text, and how many times the OCR fallback
(`extract_text_with_ocr`) was invoked. -/
structure PdfOutcome where
  fs : FS
  text : String
  ocrCalls : Nat
  deriving DecidableEq

/-- `extract_text_from_pdf` from `src/app/extractors/pdf_extractor.py`:
page-by-page direct extraction; if the stripped result has fewer than 100
characters, run the OCR fallback and keep its text exactly when its stripped
length is strictly greater; return the selected text stripped. -/
def extract_text_from_pdf (fs : FS) (directPages : List String) (env : PdfOcrEnv) :
    PdfOutcome :=
  let extracted_text := directConcat directPages
  if (pyStrip extracted_text).length < 100 then
    let r := extract_text_with_ocr fs env.tempDir env.render env.ocr
    let ocr_text := r.2
    let extracted_text :=
      if (pyStrip extracted_text).length < (pyStrip ocr_text).length then ocr_text
      else extracted_text
    ⟨r.1, pyStrip extracted_text, 1⟩
  else
    ⟨fs, pyStrip extracted_text, 0⟩

/-! ## ImageOcrPipeline (src/app/extractors/image_extractor.py) -/

/-- The observable outcome of one `extract_text_from_image` call: the returned
text and how many OCR attempts were executed. -/
structure ImageOcrRun where
  text : String
  attempts : Nat
  deriving DecidableEq

/-- `extract_text_from_image` from `src/app/extractors/image_extractor.py`.
`a1` is the tesseract output on the enhanced image with default settings,
`a2` on the enhanced image with the sparse/uniform-block configuration
(`--oem 3 --psm 6`), `a3` on the original unenhanced image; later attempts are
consulted only when the previous attempt's stripped text has fewer than 50
characters, and the stripped text of the last attempt executed is returned.
(The function's surrounding `try`/`except`, which maps an engine exception to
the empty string, is orthogonal to this retry policy.) -/
def extract_text_from_image (a1 a2 a3 : String) : ImageOcrRun :=
  let text := a1
  if (pyStrip text).length < 50 then
    let text := a2
    if (pyStrip text).length < 50 then
      let text := a3
      ⟨pyStrip text, 3⟩
    else ⟨pyStrip text, 2⟩
  else ⟨pyStrip text, 1⟩

/-! ## LegacyDocPipeline (src/app/extractors/doc_extractor.py) -/

/-- A parsed modern-format document as python-docx presents it: the ordered
paragraph texts, and for each table its rows and for each row its cell
texts. -/
structure DocxDocument where
  paragraphs : List String
  tables : List (List (List String))

/-- `extract_text_from_docx` from `src/app/extractors/doc_extractor.py`:
append every paragraph text, then every table cell text table by table,
row by row, cell by cell, and join the accumulated list with newlines.
`none` stands for `docx.Document` raising, which the handler maps to the
empty string. -/
def extract_text_from_docx : Option DocxDocument → String
  | none => ""
  | some doc =>
    let full_text := doc.paragraphs.foldl (fun acc para => acc ++ [para]) ([] : List String)
    let full_text := doc.tables.foldl
      (fun acc table => table.foldl
        (fun acc2 row => row.foldl (fun acc3 cell => acc3 ++ [cell]) acc2) acc)
      full_text
    String.intercalate "\n" full_text

/-- Outcome of the LibreOffice conversion subprocess in
`extract_text_from_doc_legacy`: either the 30-second timeout expired
(`subprocess.run` raises `TimeoutExpired`) or the process finished with an
exit code. -/
inductive ConvOutcome where
  | timeout
  | exit (code : Int)
  deriving DecidableEq

/-- `extract_text_from_doc_legacy` from `src/app/extractors/doc_extractor.py`.
`written` lists the filenames the converter deposited in the temporary
directory, `outcome` how the subprocess ended, and `readDocx` is
python-docx's view of a converted file.  The `with TemporaryDirectory` scope
removes the directory and its contents on every exit path; a timeout
propagates to the outer `try`/`except`, which returns the empty string, as do
a non-zero exit status and a missing `.docx` output file. -/
def extract_text_from_doc_legacy (fs : FS) (tempDir : String)
    (written : List String) (outcome : ConvOutcome)
    (readDocx : String → Option DocxDocument) : FS × String :=
  let fs1 : FS := tempDir :: fs
  let fs2 : FS := written.map (fun f => tempDir ++ "/" ++ f) ++ fs1
  match outcome with
  | .timeout => (cleanupDir tempDir fs2, "")
  | .exit code =>
    if code ≠ 0 then (cleanupDir tempDir fs2, "")
    else
      match written.find? (fun f => strEndsWith f ".docx") with
      | some f => (cleanupDir tempDir fs2, extract_text_from_docx (readDocx f))
      | none => (cleanupDir tempDir fs2, "")

/-- `extract_text_from_doc` from `src/app/extractors/doc_extractor.py`:
dispatch on the lowercased extension — `.docx` parses directly, `.doc` goes
through the LibreOffice conversion path, anything else returns the empty
string. -/
def extract_text_from_doc (file_path : String) (readDocx : String → Option DocxDocument)
    (fs : FS) (tempDir : String) (written : List String) (outcome : ConvOutcome) : String :=
  let file_extension := pyLower (splitext_ext file_path)
  if file_extension = ".docx" then extract_text_from_docx (readDocx file_path)
  else if file_extension = ".doc" then
    (extract_text_from_doc_legacy fs tempDir written outcome readDocx).2
  else ""

/-! ## Orchestrator: the legacy endpoints in src/app/main.py -/

/-- The HTTP-level outcome of the single-file legacy endpoint: either the JSON
body of a 200 response or an `HTTPException` with its status code and
detail. -/
inductive LegacyResponse where
  | ok (filename text fileType backend : String)
  | httpError (statusCode : Nat) (detail : String)
  deriving DecidableEq

/-- The HTTP status code a `LegacyResponse` is delivered with. -/
def LegacyResponse.status : LegacyResponse → Nat
  | .ok _ _ _ _ => 200
  | .httpError c _ => c

/-- `extract_text_legacy` (`POST /extract-text-legacy/`, src/app/main.py).
`pipeline` is the outcome of the dispatched extractor: `.ok text`, or
`.error msg` when something inside the `try` block raised with message `msg`
(file saving and removal are abstracted into the same parameter).  For a
filename classified outside `pdf`/`doc`/`image` the handler raises
`HTTPException(400, "Unsupported file type: ...")` — but it does so inside
the `try` block, so the blanket `except Exception` catches it and re-raises
`HTTPException(500, "Error processing file: " + str(e))`, where starlette
renders `str(e)` as `"400: <detail>"`.  The boolean records whether any
extractor was invoked. -/
def extract_text_legacy (filename : String) (pipeline : Except String String) :
    LegacyResponse × Bool :=
  let file_type := get_file_type filename
  if file_type = "pdf" ∨ file_type = "doc" ∨ file_type = "image" then
    match pipeline with
    | .ok text => (.ok filename text file_type "legacy", true)
    | .error e => (.httpError 500 ("Error processing file: " ++ e), true)
  else
    (.httpError 500 ("Error processing file: 400: Unsupported file type: " ++ filename), false)

/-- One per-file entry of `batch_extract_text_legacy`
(`POST /batch-extract-legacy/`): an `"error"` entry carries the exception
message in `error` and has no `text`; every other entry is `"success"`. -/
structure BatchEntry where
  filename : String
  text : Option String
  error : Option String
  status : String
  backend : String
  deriving DecidableEq

/-- The per-file body of the loop in `batch_extract_text_legacy`
(src/app/main.py): unknown categories are not dispatched and produce a
`"success"` entry whose text is the "Unsupported file type" message; an
extractor exception produces an `"error"` entry. -/
def batch_entry_legacy (filename : String) (pipeline : Except String String) :
    BatchEntry × Bool :=
  let file_type := get_file_type filename
  if file_type = "pdf" ∨ file_type = "doc" ∨ file_type = "image" then
    match pipeline with
    | .ok text => (⟨filename, some text, none, "success", "legacy"⟩, true)
    | .error e => (⟨filename, none, some e, "error", "legacy"⟩, true)
  else
    (⟨filename, some ("Unsupported file type: " ++ filename), none, "success", "legacy"⟩, false)

/-! ## Theorems -/

/-- The head of a `dropWhile` result never satisfies the dropped predicate. -/
theorem dropWhile_head_false (p : Char → Bool) (l : List Char) (a : Char) (t : List Char)
    (h : l.dropWhile p = a :: t) : p a = false := by
  induction l with
  | nil => simp at h
  | cons x xs ih =>
    rw [List.dropWhile_cons] at h
    by_cases hx : p x
    · simp [hx] at h
      exact ih h
    · simp [hx] at h
      rw [← h.1]
      simp [hx]

/-- `dropWhile` commutes with appending a single element that fails the
predicate. -/
theorem dropWhile_append_single (p : Char → Bool) (a : Char) (h : p a = false) :
    ∀ xs : List Char, (xs ++ [a]).dropWhile p = xs.dropWhile p ++ [a] := by
  intro xs
  induction xs with
  | nil => simp [List.dropWhile_cons, h]
  | cons x t ih =>
    by_cases hx : p x <;> simp [List.dropWhile_cons, hx, ih]

/-- Stripping a character list twice is the same as stripping it once. -/
theorem pyStripList_idem (l : List Char) : pyStripList (pyStripList l) = pyStripList l := by
  unfold pyStripList rstripList
  cases hA : l.dropWhile isPySpace with
  | nil => simp
  | cons a t =>
    have pa : isPySpace a = false := dropWhile_head_false isPySpace l a t hA
    have hrev : ((a :: t).reverse.dropWhile isPySpace).reverse
        = a :: (t.reverse.dropWhile isPySpace).reverse := by
      rw [List.reverse_cons, dropWhile_append_single isPySpace a pa, List.reverse_append]
      simp
    rw [hrev]
    rw [List.dropWhile_cons]
    simp only [pa, Bool.false_eq_true, if_false]
    rw [List.reverse_cons, List.reverse_reverse,
      dropWhile_append_single isPySpace a pa, List.dropWhile_idempotent,
      List.reverse_append]
    simp

/-- Stripping a string twice is the same as stripping it once. -/
theorem pyStrip_idem (s : String) : pyStrip (pyStrip s) = pyStrip s := by
  unfold pyStrip
  exact congrArg String.mk (pyStripList_idem s.data)

/-- C6 (counterexample): the claim that `get_file_type` always returns one of
`pdf`, `legacy_doc`, `image`, `unknown` is false: the filename `a.xlsx` is
classified as `excel`, a category outside the spec's enumeration (the code
also uses `doc`, `powerpoint`, `html` and `text`). -/
theorem get_file_type_not_spec_enumeration :
    get_file_type "a.xlsx" = "excel" ∧ get_file_type "a.xlsx" ∉ specCategories := by
  decide

/-- C6 (amended): classification is total and deterministic, is derived purely
from the lowercased file extension, always returns one of the eight category
strings `pdf`, `doc`, `image`, `excel`, `powerpoint`, `html`, `text`,
`unknown`, and maps every extension outside its dispatch table to `unknown`.
(Determinism holds because `get_file_type` is a function of the filename.) -/
theorem get_file_type_total_table_classification :
    (∀ f : String, get_file_type f ∈ codeCategories) ∧
    (∀ f : String, pyLower (splitext_ext f) ∉ knownExts → get_file_type f = "unknown") ∧
    (∀ f g : String, pyLower (splitext_ext f) = pyLower (splitext_ext g) →
      get_file_type f = get_file_type g) := by
  refine ⟨?_, ?_, ?_⟩
  · intro f
    unfold get_file_type
    simp only []
    repeat' split
    all_goals decide
  · intro f h
    unfold get_file_type
    simp only []
    repeat' split
    all_goals simp_all [knownExts]
  · intro f g h
    unfold get_file_type
    simp only []
    rw [h]

/-- C6 (witness): the amended classification theorem evaluated at the concrete
filenames `a.zzz` and `b.zzz`, whose shared extension is not in the table. -/
theorem get_file_type_total_table_classification_witness :
    get_file_type "a.zzz" ∈ codeCategories ∧ get_file_type "a.zzz" = "unknown" ∧
    get_file_type "a.zzz" = get_file_type "b.zzz" :=
  ⟨get_file_type_total_table_classification.1 "a.zzz",
   get_file_type_total_table_classification.2.1 "a.zzz" (by decide),
   get_file_type_total_table_classification.2.2 "a.zzz" "b.zzz" (by decide)⟩

/-- C1: when the page-by-page direct extraction yields text whose stripped
length is at least 100 characters, `extract_text_from_pdf` returns exactly
that (stripped) direct-extraction text, the OCR fallback is never invoked,
and the filesystem is untouched. -/
theorem pdf_direct_text_no_ocr (fs : FS) (dp : List String) (env : PdfOcrEnv)
    (h : 100 ≤ (pyStrip (directConcat dp)).length) :
    extract_text_from_pdf fs dp env = ⟨fs, pyStrip (directConcat dp), 0⟩ := by
  unfold extract_text_from_pdf
  simp only []
  rw [if_neg (by omega)]

/-- C1 (witness): a one-page PDF whose embedded text is one hundred `a`s is
returned directly with zero OCR invocations. -/
theorem pdf_direct_text_no_ocr_witness :
    extract_text_from_pdf [] [⟨List.replicate 100 'a'⟩]
      ⟨"tmp", Except.error (), fun _ => Except.error ()⟩
    = ⟨[], pyStrip (directConcat [⟨List.replicate 100 'a'⟩]), 0⟩ :=
  pdf_direct_text_no_ocr [] [⟨List.replicate 100 'a'⟩] _ (by decide)

/-- C2: when the direct extraction's stripped length is below 100, the OCR
fallback runs exactly once and the returned text is the (stripped) OCR result
precisely when its stripped length is strictly greater than the direct
result's; otherwise — including on an exact tie — the (stripped) direct
result is returned. -/
theorem pdf_ocr_selection (fs : FS) (dp : List String) (env : PdfOcrEnv)
    (h : (pyStrip (directConcat dp)).length < 100) :
    (extract_text_from_pdf fs dp env).text =
      (if (pyStrip (directConcat dp)).length <
          (pyStrip (extract_text_with_ocr fs env.tempDir env.render env.ocr).2).length
       then pyStrip (extract_text_with_ocr fs env.tempDir env.render env.ocr).2
       else pyStrip (directConcat dp)) ∧
    (extract_text_from_pdf fs dp env).ocrCalls = 1 := by
  unfold extract_text_from_pdf
  simp only []
  rw [if_pos h]
  refine ⟨?_, rfl⟩
  simp only []
  split <;> rfl

/-- C2 (witness): a PDF with no embedded text and a failing renderer ties at
stripped length zero, so the direct result is kept and OCR ran once. -/
theorem pdf_ocr_selection_witness :
    (extract_text_from_pdf [] [] ⟨"tmp", Except.error (), fun _ => Except.error ()⟩).text
      = pyStrip (directConcat []) ∧
    (extract_text_from_pdf [] [] ⟨"tmp", Except.error (), fun _ => Except.error ()⟩).ocrCalls
      = 1 := by
  have h := pdf_ocr_selection [] [] ⟨"tmp", Except.error (), fun _ => Except.error ()⟩ (by decide)
  refine ⟨?_, h.2⟩
  rw [h.1]
  decide

/-- C9: on every input — whichever branch is selected — the text returned by
`extract_text_from_pdf` is a fixed point of stripping, so it carries no
leading or trailing whitespace. -/
theorem pdf_result_stripped (fs : FS) (dp : List String) (env : PdfOcrEnv) :
    pyStrip (extract_text_from_pdf fs dp env).text = (extract_text_from_pdf fs dp env).text := by
  unfold extract_text_from_pdf
  simp only []
  split
  · exact pyStrip_idem _
  · exact pyStrip_idem _

/-- C3: the image OCR retry policy — attempt one (enhanced image, default
settings) is kept when its stripped length reaches 50; otherwise attempt two
(enhanced image, sparse/uniform-block configuration) is kept when its
stripped length reaches 50; otherwise attempt three (original image) is kept
unconditionally.  The returned text is always the stripped text of the last
attempt executed, at most three attempts run, and no cross-attempt
comparison occurs. -/
theorem image_ocr_retry_policy (a1 a2 a3 : String) :
    extract_text_from_image a1 a2 a3 =
      (if 50 ≤ (pyStrip a1).length then ⟨pyStrip a1, 1⟩
       else if 50 ≤ (pyStrip a2).length then ⟨pyStrip a2, 2⟩
       else ⟨pyStrip a3, 3⟩) ∧
    (extract_text_from_image a1 a2 a3).attempts ≤ 3 := by
  unfold extract_text_from_image
  by_cases h1 : (pyStrip a1).length < 50
  · by_cases h2 : (pyStrip a2).length < 50
    · have h1' : ¬ 50 ≤ (pyStrip a1).length := by omega
      have h2' : ¬ 50 ≤ (pyStrip a2).length := by omega
      simp [h1, h2, h1', h2']
    · have h1' : ¬ 50 ≤ (pyStrip a1).length := by omega
      have h2' : 50 ≤ (pyStrip a2).length := by omega
      simp [h1, h2, h1', h2']
  · have h1' : 50 ≤ (pyStrip a1).length := by omega
    simp [h1, h1']

/-- Folding snoc over a list appends it to the accumulator. -/
theorem foldl_append_one {α : Type} (l : List α) (init : List α) :
    l.foldl (fun acc x => acc ++ [x]) init = init ++ l := by
  induction l generalizing init with
  | nil => simp
  | cons a t ih => simp [List.foldl_cons, ih]

/-- Folding the cell loop over one table appends its cells row-major. -/
theorem table_foldl (t : List (List String)) (init : List String) :
    t.foldl (fun acc2 row => row.foldl (fun acc3 cell => acc3 ++ [cell]) acc2) init
      = init ++ t.flatten := by
  induction t generalizing init with
  | nil => simp
  | cons r rs ih =>
    simp only [List.foldl_cons]
    rw [foldl_append_one, ih, List.flatten_cons, List.append_assoc]

/-- Folding the table loop appends all cells, table-major then row-major. -/
theorem tables_foldl (ts : List (List (List String))) (init : List String) :
    ts.foldl (fun acc table => table.foldl
      (fun acc2 row => row.foldl (fun acc3 cell => acc3 ++ [cell]) acc2) acc) init
      = init ++ (ts.map List.flatten).flatten := by
  induction ts generalizing init with
  | nil => simp
  | cons t ts ih =>
    simp only [List.foldl_cons]
    rw [table_foldl, ih, List.map_cons, List.flatten_cons, List.append_assoc]

/-- C4: for every parsed modern-format document, `extract_text_from_docx`
returns the newline-join of all paragraph texts in document order followed by
all table cell texts in table order, row-major and cell-major within each
row; empty paragraph and cell texts stay in the joined list, so they appear
as empty lines rather than being filtered out. -/
theorem docx_paragraphs_then_tables (d : DocxDocument) :
    extract_text_from_docx (some d) =
      String.intercalate "\n" (d.paragraphs ++ (d.tables.map List.flatten).flatten) := by
  unfold extract_text_from_docx
  simp only []
  rw [foldl_append_one, tables_foldl]
  simp

/-- C5: whenever the LibreOffice conversion fails — by timeout, by a non-zero
exit status, or by leaving no `.docx` file in the temporary directory —
`extract_text_from_doc_legacy` returns the empty string (and, being a total
function here, raises nothing to its caller). -/
theorem doc_legacy_conversion_failure_empty (fs : FS) (tempDir : String)
    (written : List String) (outcome : ConvOutcome)
    (readDocx : String → Option DocxDocument)
    (h : outcome = ConvOutcome.timeout ∨ (∃ c, outcome = ConvOutcome.exit c ∧ c ≠ 0) ∨
         written.all (fun f => !strEndsWith f ".docx") = true) :
    (extract_text_from_doc_legacy fs tempDir written outcome readDocx).2 = "" := by
  unfold extract_text_from_doc_legacy
  rcases h with h | ⟨c, hc, hc0⟩ | h
  · subst h; rfl
  · subst hc; simp [hc0]
  · cases outcome with
    | timeout => rfl
    | exit code =>
      by_cases hz : code = 0
      · subst hz
        have hn : written.find? (fun f => strEndsWith f ".docx") = none := by
          rw [List.find?_eq_none]
          intro x hx
          have := List.all_eq_true.mp h x hx
          simpa using this
        simp [hn]
      · simp [hz]

/-- C5 (witness): a conversion that exits with status 1 yields the empty
string. -/
theorem doc_legacy_conversion_failure_empty_witness :
    (extract_text_from_doc_legacy [] "tmp" [] (ConvOutcome.exit 1) (fun _ => none)).2 = "" :=
  doc_legacy_conversion_failure_empty [] "tmp" [] (ConvOutcome.exit 1) (fun _ => none)
    (Or.inr (Or.inl ⟨1, rfl, by decide⟩))

/-- C10: `extract_text_from_doc` returns the empty string (without raising)
for every path whose lowercased extension is neither `.docx` nor `.doc`,
whatever the conversion environment would have done. -/
theorem doc_dispatch_unknown_extension_empty (file_path : String)
    (readDocx : String → Option DocxDocument) (fs : FS) (tempDir : String)
    (written : List String) (outcome : ConvOutcome)
    (h1 : pyLower (splitext_ext file_path) ≠ ".docx")
    (h2 : pyLower (splitext_ext file_path) ≠ ".doc") :
    extract_text_from_doc file_path readDocx fs tempDir written outcome = "" := by
  unfold extract_text_from_doc
  simp only []
  rw [if_neg h1, if_neg h2]

/-- C10 (witness): a `.txt` path is answered with the empty string. -/
theorem doc_dispatch_unknown_extension_empty_witness :
    extract_text_from_doc "notes.txt" (fun _ => none) [] "tmp" [] (ConvOutcome.exit 0) = "" :=
  doc_dispatch_unknown_extension_empty "notes.txt" (fun _ => none) [] "tmp" []
    (ConvOutcome.exit 0) (by decide) (by decide)

/-- A list is an initial segment of itself extended by anything. -/
theorem listLead_refl_append (a b : List Char) : listLead a (a ++ b) = true := by
  induction a with
  | nil => rfl
  | cons x xs ih => simp [listLead, ih]

/-- A directory lies under itself. -/
theorem underDir_self (d : String) : underDir d d = true := by
  simp [underDir]

/-- A path joined below a directory lies under it. -/
theorem underDir_join (d n : String) : underDir d (d ++ "/" ++ n) = true := by
  unfold underDir
  have h : (d ++ "/" ++ n).data = (d.data ++ ['/']) ++ n.data := by
    rw [String.data_append, String.data_append]
  rw [h, listLead_refl_append, Bool.or_true]

/-- Removing a fresh temporary directory removes exactly the directory and the
artifacts placed under it, restoring the pre-existing filesystem. -/
theorem cleanupDir_restore (d : String) (arts : List String) (fs : FS)
    (hart : ∀ a ∈ arts, underDir d a = true) (hfs : freshDir d fs) :
    cleanupDir d (arts ++ d :: fs) = fs := by
  unfold cleanupDir
  rw [List.filter_append]
  have h1 : List.filter (fun p => !underDir d p) arts = [] := by
    rw [List.filter_eq_nil_iff]
    intro a ha
    simp [hart a ha]
  have h2 : List.filter (fun p => !underDir d p) (d :: fs) = fs := by
    rw [List.filter_cons]
    simp only [underDir_self, Bool.not_true, Bool.false_eq_true, if_false]
    exact List.filter_eq_self.mpr (fun a ha => by simp [hfs a ha])
  rw [h1, h2]
  rfl

/-- C8: both pipelines that create temporary artifacts — the PDF OCR
fallback's rendered page images and the legacy-doc conversion's working
directory with whatever the converter wrote into it — leave the filesystem
exactly as they found it, on the success path, on every failure path
(rendering error, OCR error, timeout, non-zero exit, missing output) and on
the exception paths, given only that the temporary directory names are fresh
(which `tempfile.TemporaryDirectory` guarantees). -/
theorem temp_artifacts_removed_on_all_paths (fs : FS)
    (d1 : String) (render : Except Unit (List String)) (ocr : String → Except Unit String)
    (d2 : String) (written : List String) (outcome : ConvOutcome)
    (readDocx : String → Option DocxDocument)
    (h1 : freshDir d1 fs) (h2 : freshDir d2 fs) :
    (extract_text_with_ocr fs d1 render ocr).1 = fs ∧
    (extract_text_from_doc_legacy fs d2 written outcome readDocx).1 = fs := by
  constructor
  · unfold extract_text_with_ocr
    cases render with
    | error e =>
      dsimp only
      exact cleanupDir_restore d1 [] fs (by simp) h1
    | ok imgs =>
      dsimp only
      have hart : ∀ a ∈ imgs.map (fun i => d1 ++ "/" ++ i), underDir d1 a = true := by
        intro a ha
        rcases List.mem_map.mp ha with ⟨i, _, rfl⟩
        exact underDir_join d1 i
      cases ocrAll ocr imgs with
      | error e => exact cleanupDir_restore d1 _ fs hart h1
      | ok texts => exact cleanupDir_restore d1 _ fs hart h1
  · unfold extract_text_from_doc_legacy
    dsimp only
    have hart : ∀ a ∈ written.map (fun f => d2 ++ "/" ++ f), underDir d2 a = true := by
      intro a ha
      rcases List.mem_map.mp ha with ⟨f, _, rfl⟩
      exact underDir_join d2 f
    cases outcome with
    | timeout => exact cleanupDir_restore d2 _ fs hart h2
    | exit code =>
      dsimp only
      by_cases hz : code = 0
      · rw [if_neg (by simp [hz])]
        cases hfind : written.find? (fun f => strEndsWith f ".docx") with
        | some f => exact cleanupDir_restore d2 _ fs hart h2
        | none => exact cleanupDir_restore d2 _ fs hart h2
      · rw [if_pos (by simp [hz])]
        exact cleanupDir_restore d2 _ fs hart h2

/-- C8 (witness): a successful OCR run over one rendered page and a successful
conversion that produced `converted.docx` both leave the one pre-existing
file as the whole filesystem. -/
theorem temp_artifacts_removed_on_all_paths_witness :
    (extract_text_with_ocr ["/data/in.pdf"] "/tmp/a" (Except.ok ["p1.ppm"])
      (fun _ => Except.ok "hello")).1 = ["/data/in.pdf"] ∧
    (extract_text_from_doc_legacy ["/data/in.pdf"] "/tmp/b" ["converted.docx"]
      (ConvOutcome.exit 0) (fun _ => none)).1 = ["/data/in.pdf"] :=
  temp_artifacts_removed_on_all_paths ["/data/in.pdf"] "/tmp/a" (Except.ok ["p1.ppm"])
    (fun _ => Except.ok "hello") "/tmp/b" ["converted.docx"] (ConvOutcome.exit 0)
    (fun _ => none) (by unfold freshDir; decide) (by unfold freshDir; decide)

/-- C7 (code defect): in the single-file legacy endpoint an unknown-category
input is NOT reported with a status distinguishing it from an extraction
error — the `HTTPException(400)` raised for it inside the `try` block is
caught by the blanket `except Exception` and re-raised as status 500, the
same status an extractor failure receives (last conjunct).  No pipeline is
invoked for the unknown input, and the batch endpoint reports the unknown
input with status `"success"` rather than an error status. -/
theorem legacy_unknown_shares_error_status :
    (∀ pipeline : Except String String,
      ((extract_text_legacy "file.xyz" pipeline).1.status = 500 ∧
       (extract_text_legacy "file.xyz" pipeline).2 = false) ∧
      ((batch_entry_legacy "file.xyz" pipeline).1.status = "success" ∧
       (batch_entry_legacy "file.xyz" pipeline).2 = false)) ∧
    (extract_text_legacy "report.pdf" (Except.error "boom")).1.status = 500 := by
  constructor
  · intro pipeline
    have hu : get_file_type "file.xyz" = "unknown" := by decide
    unfold extract_text_legacy batch_entry_legacy
    simp only [hu]
    rw [if_neg (by decide), if_neg (by decide)]
    exact ⟨⟨rfl, rfl⟩, rfl, rfl⟩
  · decide

end File2Text
